import Mathlib

/-!
Verification of the rkaf-rs repository: an RC4 stream-cipher engine
(`src/rc4.rs`) and a SquashFS superblock header decoder (`src/main.rs`).

The embedding follows the Rust source.  Machine integers (`u8`, `u16`,
`u32`, `u64`) are modelled as `Nat` with explicit `% 2^w` where the source
relies on wrapping or width; byte buffers are `List Nat` whose entries are
reduced `% 256` at every read, matching a `&[u8]` slice.
-/

/-! ## The RC4 engine (src/rc4.rs)

`struct RC4 { state: [u8; 256], index_i: u8, index_j: u8 }`.
The 256-byte array is a `List Nat` of length 256; the `u8` cursors are
`Nat`s kept below 256 by `% 256` (Rust's `wrapping_add`). -/

structure RC4 where
  state : List Nat
  index_i : Nat
  index_j : Nat
deriving DecidableEq

/-- `l[i]` on a `[u8; 256]` array: indices produced by the cipher are
always in range, the default 0 is never reached on the source's domain. -/
def listGet (l : List Nat) (i : Nat) : Nat := l.getD i 0

/-- `state.swap(i, j)` on a Rust array, expressed with `List.set`. -/
def listSwap (l : List Nat) (i j : Nat) : List Nat :=
  (l.set i (listGet l j)).set j (listGet l i)

/-- One round of the key-scheduling loop in `RC4::init`:
`index_j = index_j.wrapping_add(state[i]).wrapping_add(key[i % key.len()]); state.swap(i, index_j)`. -/
def ksaStep (key : List Nat) (sj : List Nat × Nat) (i : Nat) : List Nat × Nat :=
  let j2 := (sj.2 + listGet sj.1 i + listGet key (i % key.length)) % 256
  (listSwap sj.1 i j2, j2)

/-- `RC4::init`: state starts as the identity array `[0, 1, ..., 255]`,
256 key-scheduling rounds run, and both cursors are reset to 0. -/
def RC4.init (key : List Nat) : RC4 :=
  ⟨((List.range 256).foldl (ksaStep key) (List.range 256, 0)).1, 0, 0⟩

/-- `RC4::new` delegates to `init` on a zeroed struct. -/
def RC4.new (key : List Nat) : RC4 := RC4.init key

/-- One iteration of the loop body of `RC4::process`: advance both
cursors, swap, and return the new cipher state together with the
keystream byte `k = state[(state[i] + state[j]) % 256]`. -/
def prgaStep (c : RC4) : RC4 × Nat :=
  let i2 := (c.index_i + 1) % 256
  let j2 := (c.index_j + listGet c.state i2) % 256
  let s2 := listSwap c.state i2 j2
  let sum := (listGet s2 i2 + listGet s2 j2) % 256
  (⟨s2, i2, j2⟩, listGet s2 sum)

/-- Processing one byte: `*byte ^= k` after the state update. -/
def RC4.processByte (c : RC4) (b : Nat) : RC4 × Nat :=
  ((prgaStep c).1, b ^^^ (prgaStep c).2)

/-- `RC4::process`: the in-place loop over the buffer, rendered as a
function from the incoming state and buffer to the outgoing state and
buffer. -/
def RC4.process : RC4 → List Nat → RC4 × List Nat
  | c, [] => (c, [])
  | c, b :: rest =>
    ((RC4.process (c.processByte b).1 rest).1,
     (c.processByte b).2 :: (RC4.process (c.processByte b).1 rest).2)

/-- Feeding one engine a list of chunks with one `process` call per
chunk, in order, collecting the outputs. -/
def RC4.processChunks (c : RC4) (chunks : List (List Nat)) : RC4 × List Nat :=
  chunks.foldl
    (fun acc chunk => ((acc.1.process chunk).1, acc.2 ++ (acc.1.process chunk).2))
    (c, [])

/-! ### Basic equations for `RC4.process` -/

theorem RC4.process_nil (c : RC4) : c.process [] = (c, []) := rfl

theorem RC4.process_cons (c : RC4) (b : Nat) (rest : List Nat) :
    c.process (b :: rest) =
      ((RC4.process (c.processByte b).1 rest).1,
       (c.processByte b).2 :: (RC4.process (c.processByte b).1 rest).2) := rfl

theorem RC4.processByte_fst (c : RC4) (b : Nat) :
    (c.processByte b).1 = (prgaStep c).1 := rfl

/-- `process` writes exactly one output byte per input byte. -/
theorem RC4.process_length (c : RC4) (d : List Nat) :
    ((c.process d).2).length = d.length := by
  induction d generalizing c with
  | nil => rfl
  | cons b rest ih => simp [RC4.process_cons, ih]

/-- The cipher state after `process` depends only on the buffer's length,
never on its contents: the state update in the loop body reads the byte
only to XOR it into the output. -/
theorem RC4.process_fst_eq_of_length_eq (c : RC4) (d1 d2 : List Nat)
    (h : d1.length = d2.length) : (c.process d1).1 = (c.process d2).1 := by
  induction d1 generalizing c d2 with
  | nil =>
    cases d2 with
    | nil => rfl
    | cons y t => simp at h
  | cons x t ih =>
    cases d2 with
    | nil => simp at h
    | cons y t2 =>
      simp only [List.length_cons, Nat.succ.injEq] at h
      simp only [RC4.process_cons, RC4.processByte_fst]
      exact ih (prgaStep c).1 t2 h

/-- Processing a buffer and then re-processing the result from the same
starting cipher state recovers the original buffer: the keystream bytes
generated are identical (the state update never reads the data byte) and
XOR is an involution. -/
theorem RC4.process_process (c : RC4) (d : List Nat) :
    (c.process ((c.process d).2)).2 = d := by
  induction d generalizing c with
  | nil => rfl
  | cons b rest ih =>
    simp only [RC4.process_cons, RC4.processByte, Nat.xor_cancel_right]
    exact congrArg (List.cons b) (ih (prgaStep c).1)

/-- `process` over a concatenation equals two successive `process` calls:
the final state threads through, outputs concatenate. -/
theorem RC4.process_append (c : RC4) (a b : List Nat) :
    c.process (a ++ b) =
      (((c.process a).1.process b).1,
       (c.process a).2 ++ ((c.process a).1.process b).2) := by
  induction a generalizing c with
  | nil => simp [RC4.process_nil]
  | cons x t ih => simp [RC4.process_cons, ih]

theorem RC4.processChunks_go (chunks : List (List Nat)) (c : RC4) (acc : List Nat) :
    chunks.foldl
        (fun acc chunk => ((acc.1.process chunk).1, acc.2 ++ (acc.1.process chunk).2))
        (c, acc) =
      ((c.process chunks.flatten).1, acc ++ (c.process chunks.flatten).2) := by
  induction chunks generalizing c acc with
  | nil => simp [RC4.process_nil]
  | cons ch rest ih =>
    simp only [List.foldl_cons, List.flatten_cons, ih, RC4.process_append,
      List.append_assoc]

/-- Chunked processing on one engine equals one whole-buffer call: same
final state, same output bytes. -/
theorem RC4.processChunks_eq_process (c : RC4) (chunks : List (List Nat)) :
    c.processChunks chunks = c.process chunks.flatten := by
  simp [RC4.processChunks, RC4.processChunks_go]

/-! ### The permutation invariant -/

/-- Moving the element at index `k` to the head while writing `x` at
index `k` is a permutation-preserving exchange. -/
theorem set_cons_perm (t : List Nat) (k x : Nat) (hk : k < t.length) :
    List.Perm (t.getD k 0 :: t.set k x) (x :: t) := by
  induction t generalizing k with
  | nil => simp at hk
  | cons y s ih =>
    cases k with
    | zero => simpa using List.Perm.swap x y s
    | succ m =>
      have hm : m < s.length := by simpa using hk
      exact (List.Perm.swap y (s.getD m 0) (s.set m x)).trans
        (((ih m hm).cons y).trans (List.Perm.swap x y s))

/-- A `swap` of two in-range indices permutes the list. -/
theorem listSwap_perm (l : List Nat) (i j : Nat)
    (hi : i < l.length) (hj : j < l.length) : List.Perm (listSwap l i j) l := by
  induction l generalizing i j with
  | nil => simp at hi
  | cons x t ih =>
    cases i with
    | zero =>
      cases j with
      | zero => simp [listSwap, listGet]
      | succ k =>
        have hk : k < t.length := by simpa using hj
        simpa [listSwap, listGet] using set_cons_perm t k x hk
    | succ m =>
      cases j with
      | zero =>
        have hm : m < t.length := by simpa using hi
        simpa [listSwap, listGet] using set_cons_perm t m x hm
      | succ k =>
        have hm : m < t.length := by simpa using hi
        have hk : k < t.length := by simpa using hj
        simpa [listSwap, listGet] using (ih m k hm hk).cons x

/-- One key-scheduling round keeps the state a permutation of `0..255`. -/
theorem ksaStep_perm (key : List Nat) (sj : List Nat × Nat) (i : Nat)
    (hs : List.Perm sj.1 (List.range 256)) (hi : i < 256) :
    List.Perm (ksaStep key sj i).1 (List.range 256) := by
  have hlen : sj.1.length = 256 := by simpa using hs.length_eq
  have hj2 : (sj.2 + listGet sj.1 i + listGet key (i % key.length)) % 256 < 256 :=
    Nat.mod_lt _ (by omega)
  exact (listSwap_perm sj.1 i _ (by omega) (by omega)).trans hs

theorem ksa_foldl_perm (key : List Nat) (is : List Nat)
    (his : ∀ i ∈ is, i < 256) (sj : List Nat × Nat)
    (hs : List.Perm sj.1 (List.range 256)) :
    List.Perm (is.foldl (ksaStep key) sj).1 (List.range 256) := by
  induction is generalizing sj with
  | nil => simpa using hs
  | cons i rest ih =>
    simp only [List.foldl_cons]
    exact ih (fun x hx => his x (List.mem_cons_of_mem i hx)) _
      (ksaStep_perm key sj i hs (his i (List.mem_cons_self i rest)))

set_option maxRecDepth 4000 in
/-- After `RC4::init` the 256-entry state array is a permutation of
`0..255`. -/
theorem RC4.init_state_perm (key : List Nat) :
    List.Perm (RC4.init key).state (List.range 256) := by
  simp only [RC4.init]
  exact ksa_foldl_perm key (List.range 256)
    (fun i hi => List.mem_range.mp hi) (List.range 256, 0) (List.Perm.refl _)

/-- One `process` loop iteration keeps the state a permutation of
`0..255`. -/
theorem prgaStep_perm (c : RC4) (hs : List.Perm c.state (List.range 256)) :
    List.Perm (prgaStep c).1.state (List.range 256) := by
  have hlen : c.state.length = 256 := by simpa using hs.length_eq
  have hi2 : (c.index_i + 1) % 256 < 256 := Nat.mod_lt _ (by omega)
  have hj2 : (c.index_j + listGet c.state ((c.index_i + 1) % 256)) % 256 < 256 :=
    Nat.mod_lt _ (by omega)
  exact (listSwap_perm c.state _ _ (by omega) (by omega)).trans hs

/-- Every `process` call, on any buffer, keeps the state a permutation of
`0..255`. -/
theorem RC4.process_state_perm (d : List Nat) (c : RC4)
    (hs : List.Perm c.state (List.range 256)) :
    List.Perm ((c.process d).1).state (List.range 256) := by
  induction d generalizing c with
  | nil => simpa using hs
  | cons b rest ih =>
    simp only [RC4.process_cons, RC4.processByte_fst]
    exact ih (prgaStep c).1 (prgaStep_perm c hs)

/-! ### Claims about the RC4 engine -/

/-- Claim C1: for every key of length 1 to 256 bytes and every byte
sequence `B`, processing `B` with a freshly initialized engine and then
processing the result with a second engine freshly initialized from the
same key yields exactly `B`. -/
theorem rc4_process_self_inverse (key B : List Nat)
    (_hk1 : 1 ≤ key.length) (_hk2 : key.length ≤ 256) :
    ((RC4.init key).process (((RC4.init key).process B).2)).2 = B :=
  RC4.process_process (RC4.init key) B

theorem rc4_process_self_inverse_witness :
    1 ≤ ([0x42] : List Nat).length ∧
    ((RC4.init [0x42]).process (((RC4.init [0x42]).process [7, 8, 9]).2)).2 =
      [7, 8, 9] :=
  ⟨by decide, rc4_process_self_inverse [0x42] [7, 8, 9] (by decide) (by decide)⟩

set_option maxRecDepth 8000 in
/-- Claim C2: an engine initialized with the 16-byte key
`01 02 .. 10` applied to a 16-byte all-zero buffer produces exactly the
RFC 6229 keystream vector `9a c7 cc 9a 60 9d 1e f7 b2 93 28 99 cd e4 1b 97`. -/
theorem rc4_rfc6229_known_answer :
    ((RC4.init [1, 2, 3, 4, 5, 6, 7, 8, 9, 10, 11, 12, 13, 14, 15, 16]).process
      (List.replicate 16 0)).2 =
    [0x9a, 0xc7, 0xcc, 0x9a, 0x60, 0x9d, 0x1e, 0xf7,
     0xb2, 0x93, 0x28, 0x99, 0xcd, 0xe4, 0x1b, 0x97] := by decide

/-- Claim C3: splitting a byte stream into any partition of contiguous
chunks and calling `process` once per chunk on one engine yields the same
output bytes and the same final cipher state as one call over the whole
stream; hence two engines seeded with the same key and fed the same byte
stream produce identical output regardless of chunking. -/
theorem rc4_chunking_invariance (key : List Nat)
    (chunks chunks2 : List (List Nat)) (h : chunks.flatten = chunks2.flatten) :
    (RC4.init key).processChunks chunks = (RC4.init key).process chunks.flatten ∧
    (RC4.init key).processChunks chunks = (RC4.init key).processChunks chunks2 := by
  refine ⟨RC4.processChunks_eq_process _ chunks, ?_⟩
  rw [RC4.processChunks_eq_process, RC4.processChunks_eq_process, h]

theorem rc4_chunking_invariance_witness :
    (RC4.init [5]).processChunks [[1], [2], [3]] =
      (RC4.init [5]).processChunks [[1, 2, 3]] :=
  (rc4_chunking_invariance [5] [[1], [2], [3]] [[1, 2, 3]] (by decide)).2

/-- Claim C4: for every key of length 1 to 256 bytes, the 256-entry state
array is a permutation of `{0..255}` immediately after `init`, and every
`process` call, on any buffer, preserves this permutation property. -/
theorem rc4_state_permutation (key data : List Nat)
    (_hk1 : 1 ≤ key.length) (_hk2 : key.length ≤ 256) :
    List.Perm (RC4.init key).state (List.range 256) ∧
    (∀ c : RC4, List.Perm c.state (List.range 256) →
      List.Perm ((c.process data).1).state (List.range 256)) :=
  ⟨RC4.init_state_perm key, fun c hc => RC4.process_state_perm data c hc⟩

theorem rc4_state_permutation_witness :
    List.Perm (RC4.init [1]).state (List.range 256) :=
  (rc4_state_permutation [1] [0] (by decide) (by decide)).1

/-- Claim C8: encrypting `A ++ B` on a fresh engine, then on a second
fresh engine with the same key processing any `len(A)`-byte placeholder
buffer (output discarded) and then processing the ciphertext suffix for
`B`, recovers exactly `B`; and the cipher state after `process` depends
only on the buffer's length, never on its contents. -/
theorem rc4_skip_ahead (key A B P : List Nat) (hP : P.length = A.length) :
    ((((RC4.init key).process P).1.process
        ((((RC4.init key).process (A ++ B)).2).drop A.length)).2 = B) ∧
    (∀ (c : RC4) (d1 d2 : List Nat), d1.length = d2.length →
      (c.process d1).1 = (c.process d2).1) := by
  constructor
  · rw [RC4.process_append]
    have hlen : ((RC4.init key).process A).2.length = A.length :=
      RC4.process_length _ _
    rw [← hlen, List.drop_left]
    rw [RC4.process_fst_eq_of_length_eq (RC4.init key) P A hP]
    exact RC4.process_process _ B
  · exact fun c d1 d2 h => RC4.process_fst_eq_of_length_eq c d1 d2 h

theorem rc4_skip_ahead_witness :
    ((((RC4.init [9]).process [0, 0]).1.process
        ((((RC4.init [9]).process ([1, 2] ++ [3])).2).drop
          ([1, 2] : List Nat).length)).2 = [3]) :=
  (rc4_skip_ahead [9] [1, 2] [3] [0, 0] (by decide)).1

/-! ## The SquashFS superblock decoder (src/main.rs)

The Rust decoder is a `binrw`-derived reader over a little-endian byte
buffer: a 4-byte magic, then the fields in declaration order, then the
struct-level assertions in declaration order.  We embed it as a
sequential reader over a `List Nat` of bytes that returns a typed
`Except` result.  Every read reduces the raw entries `% 256`, matching a
`&[u8]` buffer. -/

inductive DecodeError where
  | truncated
  | badMagic
  | invalidTimestamp
  | assertFail
deriving DecidableEq

structure Reader where
  data : List Nat
  pos : Nat
deriving DecidableEq

/-- The bytes of the `u8` slice `data[off .. off + n]`. -/
def bufBytes (data : List Nat) (off n : Nat) : List Nat :=
  ((data.drop off).take n).map (fun b => b % 256)

/-- Little-endian value of a byte list (`uNN::from_le_bytes`). -/
def leBytes (l : List Nat) : Nat := l.foldr (fun b acc => b + 256 * acc) 0

/-- Reading `n` raw bytes; a buffer shorter than the read requires is a
truncation error (binrw's end-of-file error). -/
def readBytes (r : Reader) (n : Nat) : Except DecodeError (List Nat × Reader) :=
  if r.pos + n ≤ r.data.length then
    Except.ok (bufBytes r.data r.pos n, ⟨r.data, r.pos + n⟩)
  else
    Except.error DecodeError.truncated

def readU16 (r : Reader) : Except DecodeError (Nat × Reader) :=
  match readBytes r 2 with
  | Except.error e => Except.error e
  | Except.ok (bs, r2) => Except.ok (leBytes bs, r2)

def readU32 (r : Reader) : Except DecodeError (Nat × Reader) :=
  match readBytes r 4 with
  | Except.error e => Except.error e
  | Except.ok (bs, r2) => Except.ok (leBytes bs, r2)

def readU64 (r : Reader) : Except DecodeError (Nat × Reader) :=
  match readBytes r 8 with
  | Except.error e => Except.error e
  | Except.ok (bs, r2) => Except.ok (leBytes bs, r2)

/-- Modelled from the chrono library used by `as_datetime`:
`DateTime::from_timestamp(secs, 0)` returns `None` exactly when `secs`
lies outside chrono's representable calendar range, roughly
±262000 years around the epoch.  Only the sign and the magnitude
(well above `2^32`) of these bounds matter to the embedded program,
since the timestamp read is a `u32`. -/
def chronoMinTimestamp : Int := -8334601228800

def chronoMaxTimestamp : Int := 8210266876799

/-- `as_datetime`: read a `u32` and convert it to a calendar datetime,
failing with `Invalid timestamp` when chrono rejects the value.  The
RFC 3339 rendering of the datetime is value-injective, so the model
keeps the epoch seconds themselves. -/
def as_datetime (r : Reader) : Except DecodeError (Nat × Reader) :=
  match readU32 r with
  | Except.error e => Except.error e
  | Except.ok (timestamp, r2) =>
    if chronoMinTimestamp ≤ (timestamp : Int) ∧ (timestamp : Int) ≤ chronoMaxTimestamp then
      Except.ok (timestamp, r2)
    else
      Except.error DecodeError.invalidTimestamp

/-- `as_optional`: read a `u64`; the all-ones sentinel decodes to
"absent", every other value to a present pointer carrying that value. -/
def as_optional (r : Reader) : Except DecodeError (Option Nat × Reader) :=
  match readU64 r with
  | Except.error e => Except.error e
  | Except.ok (value, r2) =>
    if value = 0xFFFFFFFFFFFFFFFF then
      Except.ok (none, r2)
    else
      Except.ok (some value, r2)

/-- The bitwise OR of the twelve named `SuperBlockFlags` bits
(`0x0001 .. 0x0800`). -/
def superBlockFlagsAll : Nat :=
  0x0001 ||| 0x0002 ||| 0x0004 ||| 0x0008 ||| 0x0010 ||| 0x0020 |||
  0x0040 ||| 0x0080 ||| 0x0100 ||| 0x0200 ||| 0x0400 ||| 0x0800

/-- `bitflags`' `from_bits_truncate`: keep the named bits, discard the
rest. -/
def from_bits_truncate (bits : Nat) : Nat := bits &&& superBlockFlagsAll

/-- `SuperBlockFlags::parse`: read the `u16` flags field and map it to
the named bit set with `from_bits_truncate`. -/
def SuperBlockFlags.parse (r : Reader) : Except DecodeError (Nat × Reader) :=
  match readU16 r with
  | Except.error e => Except.error e
  | Except.ok (flags, r2) => Except.ok (from_bits_truncate flags, r2)

/-- `u32::is_power_of_two`: exactly one bit set.  For a `u32` value this
is equivalent to being `2 ^ k` for some `k < 32`. -/
def is_power_of_two (n : Nat) : Bool := decide (∃ k, k < 32 ∧ n = 2 ^ k)

/-- Base-2 logarithm by repeated halving with enough fuel for a `u32`;
structural in the fuel so that it evaluates by kernel reduction. -/
def log2Aux : Nat → Nat → Nat
  | 0, _ => 0
  | fuel + 1, n => if 2 ≤ n then log2Aux fuel (n / 2) + 1 else 0

def log2u32 (n : Nat) : Nat := log2Aux 32 n

/-- The source asserts `(block_size as f32).log(2.0).round() as u16 ==
block_log`.  For every `block_size` that passes the power-of-two and
range assertions (`2^12 .. 2^20`) the `f32` computation is exact — the
relative error of single-precision `ln(x)/ln(2)` is far below the `0.5`
the rounding absorbs — and equals the integer base-2 logarithm; for any
other `block_size` one of the other assertions fails, so the overall
decode outcome does not depend on this branch.  The check is therefore
embedded as the exact integer base-2 logarithm. -/
def blockLogCheck (block_size block_log : Nat) : Bool :=
  log2u32 block_size == block_log

/-- `b"hsqs"`. -/
def magicBytes : List Nat := [0x68, 0x73, 0x71, 0x73]

/-- `b"sqsh"`. -/
def sqshBytes : List Nat := [0x73, 0x71, 0x73, 0x68]

structure SuperBlock where
  inode_count : Nat
  mod_time : Nat
  block_size : Nat
  frag_count : Nat
  compressor : Nat
  block_log : Nat
  flags : Nat
  id_count : Nat
  version_major : Nat
  version_minor : Nat
  root_inode : Nat
  bytes_used : Nat
  id_table_start : Nat
  xattr_id_table_start : Option Nat
  inode_table_start : Nat
  directory_table_start : Nat
  fragment_table_start : Option Nat
  export_table_start : Option Nat
deriving DecidableEq

/-- `SuperBlock::read`: the binrw-derived decode — 4-byte magic, the
fields in declaration order with their field-level transforms, then the
struct-level assertions in declaration order. -/
def SuperBlock.read (buf : List Nat) : Except DecodeError SuperBlock :=
  match readBytes ⟨buf, 0⟩ 4 with
  | Except.error e => Except.error e
  | Except.ok (magic, r1) =>
  if magic = magicBytes then
    match readU32 r1 with
    | Except.error e => Except.error e
    | Except.ok (inode_count, r2) =>
    match as_datetime r2 with
    | Except.error e => Except.error e
    | Except.ok (mod_time, r3) =>
    match readU32 r3 with
    | Except.error e => Except.error e
    | Except.ok (block_size, r4) =>
    match readU32 r4 with
    | Except.error e => Except.error e
    | Except.ok (frag_count, r5) =>
    match readU16 r5 with
    | Except.error e => Except.error e
    | Except.ok (compressor, r6) =>
    match readU16 r6 with
    | Except.error e => Except.error e
    | Except.ok (block_log, r7) =>
    match SuperBlockFlags.parse r7 with
    | Except.error e => Except.error e
    | Except.ok (flags, r8) =>
    match readU16 r8 with
    | Except.error e => Except.error e
    | Except.ok (id_count, r9) =>
    match readU16 r9 with
    | Except.error e => Except.error e
    | Except.ok (version_major, r10) =>
    match readU16 r10 with
    | Except.error e => Except.error e
    | Except.ok (version_minor, r11) =>
    match readU64 r11 with
    | Except.error e => Except.error e
    | Except.ok (root_inode, r12) =>
    match readU64 r12 with
    | Except.error e => Except.error e
    | Except.ok (bytes_used, r13) =>
    match readU64 r13 with
    | Except.error e => Except.error e
    | Except.ok (id_table_start, r14) =>
    match as_optional r14 with
    | Except.error e => Except.error e
    | Except.ok (xattr_id_table_start, r15) =>
    match readU64 r15 with
    | Except.error e => Except.error e
    | Except.ok (inode_table_start, r16) =>
    match readU64 r16 with
    | Except.error e => Except.error e
    | Except.ok (directory_table_start, r17) =>
    match as_optional r17 with
    | Except.error e => Except.error e
    | Except.ok (fragment_table_start, r18) =>
    match as_optional r18 with
    | Except.error e => Except.error e
    | Except.ok (export_table_start, _) =>
    if version_major = 4 then
      if version_minor = 0 then
        if blockLogCheck block_size block_log then
          if is_power_of_two block_size then
            if 4096 ≤ block_size ∧ block_size ≤ 1048576 then
              Except.ok
                { inode_count := inode_count, mod_time := mod_time,
                  block_size := block_size, frag_count := frag_count,
                  compressor := compressor, block_log := block_log,
                  flags := flags, id_count := id_count,
                  version_major := version_major, version_minor := version_minor,
                  root_inode := root_inode, bytes_used := bytes_used,
                  id_table_start := id_table_start,
                  xattr_id_table_start := xattr_id_table_start,
                  inode_table_start := inode_table_start,
                  directory_table_start := directory_table_start,
                  fragment_table_start := fragment_table_start,
                  export_table_start := export_table_start }
            else Except.error DecodeError.assertFail
          else Except.error DecodeError.assertFail
        else Except.error DecodeError.assertFail
      else Except.error DecodeError.assertFail
    else Except.error DecodeError.assertFail
  else Except.error DecodeError.badMagic

/-- Whether a decode attempt succeeded. -/
def isOkE {α : Type} (e : Except DecodeError α) : Bool :=
  match e with
  | Except.ok _ => true
  | Except.error _ => false

/-- `validate_squashfs_header`: accepts both SquashFS byte orders. -/
def validate_squashfs_header (data : List Nat) : Bool :=
  if data.length < 4 then false
  else decide (bufBytes data 0 4 = magicBytes ∨ bufBytes data 0 4 = sqshBytes)

/-- The observable outcomes of `decrypt_header`, file I/O aside.
`panicked` records a Rust panic (an out-of-range slice). -/
inductive HeaderOutcome where
  | panicked
  | invalidHeader
  | decodeFailed (e : DecodeError)
  | ok (sb : SuperBlock)
deriving DecidableEq

/-- The pure core of `decrypt_header`: slice the first 96 bytes
(`buffer[..96]` — a Rust slice panic when the buffer is shorter),
decrypt them in place with a fresh RC4 engine, validate the magic, then
decode the superblock. -/
def decrypt_header (key buffer : List Nat) : HeaderOutcome :=
  if buffer.length < 96 then HeaderOutcome.panicked
  else
    match SuperBlock.read (((RC4.init key).process (buffer.take 96)).2) with
    | Except.ok sb =>
        if validate_squashfs_header (((RC4.init key).process (buffer.take 96)).2) then
          HeaderOutcome.ok sb
        else HeaderOutcome.invalidHeader
    | Except.error e =>
        if validate_squashfs_header (((RC4.init key).process (buffer.take 96)).2) then
          HeaderOutcome.decodeFailed e
        else HeaderOutcome.invalidHeader

/-! ### Reader lemmas -/

theorem leBytes_lt (l : List Nat) (h : ∀ b ∈ l, b < 256) :
    leBytes l < 256 ^ l.length := by
  induction l with
  | nil => simp [leBytes]
  | cons b t ih =>
    have hb : b < 256 := h b (List.mem_cons_self b t)
    have ht : leBytes t < 256 ^ t.length :=
      ih (fun x hx => h x (List.mem_cons_of_mem b hx))
    have hd : leBytes (b :: t) = b + 256 * leBytes t := rfl
    rw [hd, List.length_cons, Nat.pow_succ]
    omega

theorem bufBytes_mem_lt (data : List Nat) (off n : Nat) :
    ∀ b ∈ bufBytes data off n, b < 256 := by
  intro b hb
  simp only [bufBytes, List.mem_map] at hb
  obtain ⟨a, -, rfl⟩ := hb
  exact Nat.mod_lt _ (by omega)

theorem bufBytes_length_le (data : List Nat) (off n : Nat) :
    (bufBytes data off n).length ≤ n := by
  simp [bufBytes]

theorem bufBytes_leBytes_lt (data : List Nat) (off n : Nat) :
    leBytes (bufBytes data off n) < 256 ^ n :=
  Nat.lt_of_lt_of_le (leBytes_lt _ (bufBytes_mem_lt data off n))
    (Nat.pow_le_pow_right (by omega) (bufBytes_length_le data off n))

theorem readBytes_ok (data : List Nat) (pos n : Nat) (h : pos + n ≤ data.length) :
    readBytes ⟨data, pos⟩ n = Except.ok (bufBytes data pos n, ⟨data, pos + n⟩) := by
  simp [readBytes, h]

theorem readBytes_err (data : List Nat) (pos n : Nat) (h : ¬ pos + n ≤ data.length) :
    readBytes ⟨data, pos⟩ n = Except.error DecodeError.truncated := by
  simp [readBytes, h]

theorem readU16_ok (data : List Nat) (pos : Nat) (h : pos + 2 ≤ data.length) :
    readU16 ⟨data, pos⟩ =
      Except.ok (leBytes (bufBytes data pos 2), ⟨data, pos + 2⟩) := by
  simp [readU16, readBytes_ok data pos 2 h]

theorem readU16_err (data : List Nat) (pos : Nat) (h : ¬ pos + 2 ≤ data.length) :
    readU16 ⟨data, pos⟩ = Except.error DecodeError.truncated := by
  simp [readU16, readBytes_err data pos 2 h]

theorem readU32_ok (data : List Nat) (pos : Nat) (h : pos + 4 ≤ data.length) :
    readU32 ⟨data, pos⟩ =
      Except.ok (leBytes (bufBytes data pos 4), ⟨data, pos + 4⟩) := by
  simp [readU32, readBytes_ok data pos 4 h]

theorem readU32_err (data : List Nat) (pos : Nat) (h : ¬ pos + 4 ≤ data.length) :
    readU32 ⟨data, pos⟩ = Except.error DecodeError.truncated := by
  simp [readU32, readBytes_err data pos 4 h]

theorem readU64_ok (data : List Nat) (pos : Nat) (h : pos + 8 ≤ data.length) :
    readU64 ⟨data, pos⟩ =
      Except.ok (leBytes (bufBytes data pos 8), ⟨data, pos + 8⟩) := by
  simp [readU64, readBytes_ok data pos 8 h]

theorem readU64_err (data : List Nat) (pos : Nat) (h : ¬ pos + 8 ≤ data.length) :
    readU64 ⟨data, pos⟩ = Except.error DecodeError.truncated := by
  simp [readU64, readBytes_err data pos 8 h]

/-- Every `u32` value lies inside chrono's representable range: the
bounds are on the order of `2^43` while a `u32` is below `2^32`. -/
theorem timestamp_range (data : List Nat) (pos : Nat) :
    chronoMinTimestamp ≤ (leBytes (bufBytes data pos 4) : Int) ∧
    (leBytes (bufBytes data pos 4) : Int) ≤ chronoMaxTimestamp := by
  have h : leBytes (bufBytes data pos 4) < 256 ^ 4 := bufBytes_leBytes_lt data pos 4
  have h4 : (256 : Nat) ^ 4 = 4294967296 := by norm_num
  rw [h4] at h
  constructor
  · simp only [chronoMinTimestamp]
    omega
  · simp only [chronoMaxTimestamp]
    omega

theorem as_datetime_ok (data : List Nat) (pos : Nat) (h : pos + 4 ≤ data.length) :
    as_datetime ⟨data, pos⟩ =
      Except.ok (leBytes (bufBytes data pos 4), ⟨data, pos + 4⟩) := by
  simp [as_datetime, readU32_ok data pos h, timestamp_range data pos]

theorem as_datetime_err (data : List Nat) (pos : Nat) (h : ¬ pos + 4 ≤ data.length) :
    as_datetime ⟨data, pos⟩ = Except.error DecodeError.truncated := by
  simp [as_datetime, readU32_err data pos h]

theorem as_optional_ok (data : List Nat) (pos : Nat) (h : pos + 8 ≤ data.length) :
    as_optional ⟨data, pos⟩ =
      Except.ok
        ((if leBytes (bufBytes data pos 8) = 0xFFFFFFFFFFFFFFFF then none
          else some (leBytes (bufBytes data pos 8))), ⟨data, pos + 8⟩) := by
  simp only [as_optional, readU64_ok data pos h]
  split_ifs with hv <;> simp [hv]

theorem as_optional_err (data : List Nat) (pos : Nat) (h : ¬ pos + 8 ≤ data.length) :
    as_optional ⟨data, pos⟩ = Except.error DecodeError.truncated := by
  simp [as_optional, readU64_err data pos h]

theorem SuperBlockFlags.parse_ok (data : List Nat) (pos : Nat)
    (h : pos + 2 ≤ data.length) :
    SuperBlockFlags.parse ⟨data, pos⟩ =
      Except.ok (from_bits_truncate (leBytes (bufBytes data pos 2)), ⟨data, pos + 2⟩) := by
  simp [SuperBlockFlags.parse, readU16_ok data pos h]

theorem SuperBlockFlags.parse_err (data : List Nat) (pos : Nat)
    (h : ¬ pos + 2 ≤ data.length) :
    SuperBlockFlags.parse ⟨data, pos⟩ = Except.error DecodeError.truncated := by
  simp [SuperBlockFlags.parse, readU16_err data pos h]

/-- The little-endian `u16` at a given offset of the buffer. -/
def fieldU16 (buf : List Nat) (off : Nat) : Nat := leBytes (bufBytes buf off 2)

/-- The little-endian `u32` at a given offset of the buffer. -/
def fieldU32 (buf : List Nat) (off : Nat) : Nat := leBytes (bufBytes buf off 4)

/-- The little-endian `u64` at a given offset of the buffer. -/
def fieldU64 (buf : List Nat) (off : Nat) : Nat := leBytes (bufBytes buf off 8)

/-- The optional-pointer transform on the raw `u64` value. -/
def decodeOpt (v : Nat) : Option Nat :=
  if v = 0xFFFFFFFFFFFFFFFF then none else some v
/-- A buffer shorter than the 96-byte fixed-field span cannot decode:
some field read fails (or the magic check fails first). -/
theorem superblock_read_short (buf : List Nat) (h96 : ¬ 96 ≤ buf.length) :
    isOkE (SuperBlock.read buf) = false := by
  by_cases h4 : 4 ≤ buf.length
  case neg => simp [SuperBlock.read, isOkE, readBytes_err buf 0 4 (by omega)]
  by_cases hm : bufBytes buf 0 4 = magicBytes
  case neg => simp [SuperBlock.read, isOkE, readBytes_ok buf 0 4 (by omega), hm]
  by_cases h8 : 8 ≤ buf.length
  case neg => simp [SuperBlock.read, isOkE, readBytes_ok buf 0 4 (by omega), hm, readU32_err buf 4 (by omega)]
  by_cases h12 : 12 ≤ buf.length
  case neg => simp [SuperBlock.read, isOkE, readBytes_ok buf 0 4 (by omega), hm, readU32_ok buf 4 (by omega), as_datetime_err buf 8 (by omega)]
  by_cases h16 : 16 ≤ buf.length
  case neg => simp [SuperBlock.read, isOkE, readBytes_ok buf 0 4 (by omega), hm, readU32_ok buf 4 (by omega), as_datetime_ok buf 8 (by omega), readU32_err buf 12 (by omega)]
  by_cases h20 : 20 ≤ buf.length
  case neg => simp [SuperBlock.read, isOkE, readBytes_ok buf 0 4 (by omega), hm, readU32_ok buf 4 (by omega), as_datetime_ok buf 8 (by omega), readU32_ok buf 12 (by omega), readU32_err buf 16 (by omega)]
  by_cases h22 : 22 ≤ buf.length
  case neg => simp [SuperBlock.read, isOkE, readBytes_ok buf 0 4 (by omega), hm, readU32_ok buf 4 (by omega), as_datetime_ok buf 8 (by omega), readU32_ok buf 12 (by omega), readU32_ok buf 16 (by omega), readU16_err buf 20 (by omega)]
  by_cases h24 : 24 ≤ buf.length
  case neg => simp [SuperBlock.read, isOkE, readBytes_ok buf 0 4 (by omega), hm, readU32_ok buf 4 (by omega), as_datetime_ok buf 8 (by omega), readU32_ok buf 12 (by omega), readU32_ok buf 16 (by omega), readU16_ok buf 20 (by omega), readU16_err buf 22 (by omega)]
  by_cases h26 : 26 ≤ buf.length
  case neg => simp [SuperBlock.read, isOkE, readBytes_ok buf 0 4 (by omega), hm, readU32_ok buf 4 (by omega), as_datetime_ok buf 8 (by omega), readU32_ok buf 12 (by omega), readU32_ok buf 16 (by omega), readU16_ok buf 20 (by omega), readU16_ok buf 22 (by omega), SuperBlockFlags.parse_err buf 24 (by omega)]
  by_cases h28 : 28 ≤ buf.length
  case neg => simp [SuperBlock.read, isOkE, readBytes_ok buf 0 4 (by omega), hm, readU32_ok buf 4 (by omega), as_datetime_ok buf 8 (by omega), readU32_ok buf 12 (by omega), readU32_ok buf 16 (by omega), readU16_ok buf 20 (by omega), readU16_ok buf 22 (by omega), SuperBlockFlags.parse_ok buf 24 (by omega), readU16_err buf 26 (by omega)]
  by_cases h30 : 30 ≤ buf.length
  case neg => simp [SuperBlock.read, isOkE, readBytes_ok buf 0 4 (by omega), hm, readU32_ok buf 4 (by omega), as_datetime_ok buf 8 (by omega), readU32_ok buf 12 (by omega), readU32_ok buf 16 (by omega), readU16_ok buf 20 (by omega), readU16_ok buf 22 (by omega), SuperBlockFlags.parse_ok buf 24 (by omega), readU16_ok buf 26 (by omega), readU16_err buf 28 (by omega)]
  by_cases h32 : 32 ≤ buf.length
  case neg => simp [SuperBlock.read, isOkE, readBytes_ok buf 0 4 (by omega), hm, readU32_ok buf 4 (by omega), as_datetime_ok buf 8 (by omega), readU32_ok buf 12 (by omega), readU32_ok buf 16 (by omega), readU16_ok buf 20 (by omega), readU16_ok buf 22 (by omega), SuperBlockFlags.parse_ok buf 24 (by omega), readU16_ok buf 26 (by omega), readU16_ok buf 28 (by omega), readU16_err buf 30 (by omega)]
  by_cases h40 : 40 ≤ buf.length
  case neg => simp [SuperBlock.read, isOkE, readBytes_ok buf 0 4 (by omega), hm, readU32_ok buf 4 (by omega), as_datetime_ok buf 8 (by omega), readU32_ok buf 12 (by omega), readU32_ok buf 16 (by omega), readU16_ok buf 20 (by omega), readU16_ok buf 22 (by omega), SuperBlockFlags.parse_ok buf 24 (by omega), readU16_ok buf 26 (by omega), readU16_ok buf 28 (by omega), readU16_ok buf 30 (by omega), readU64_err buf 32 (by omega)]
  by_cases h48 : 48 ≤ buf.length
  case neg => simp [SuperBlock.read, isOkE, readBytes_ok buf 0 4 (by omega), hm, readU32_ok buf 4 (by omega), as_datetime_ok buf 8 (by omega), readU32_ok buf 12 (by omega), readU32_ok buf 16 (by omega), readU16_ok buf 20 (by omega), readU16_ok buf 22 (by omega), SuperBlockFlags.parse_ok buf 24 (by omega), readU16_ok buf 26 (by omega), readU16_ok buf 28 (by omega), readU16_ok buf 30 (by omega), readU64_ok buf 32 (by omega), readU64_err buf 40 (by omega)]
  by_cases h56 : 56 ≤ buf.length
  case neg => simp [SuperBlock.read, isOkE, readBytes_ok buf 0 4 (by omega), hm, readU32_ok buf 4 (by omega), as_datetime_ok buf 8 (by omega), readU32_ok buf 12 (by omega), readU32_ok buf 16 (by omega), readU16_ok buf 20 (by omega), readU16_ok buf 22 (by omega), SuperBlockFlags.parse_ok buf 24 (by omega), readU16_ok buf 26 (by omega), readU16_ok buf 28 (by omega), readU16_ok buf 30 (by omega), readU64_ok buf 32 (by omega), readU64_ok buf 40 (by omega), readU64_err buf 48 (by omega)]
  by_cases h64 : 64 ≤ buf.length
  case neg => simp [SuperBlock.read, isOkE, readBytes_ok buf 0 4 (by omega), hm, readU32_ok buf 4 (by omega), as_datetime_ok buf 8 (by omega), readU32_ok buf 12 (by omega), readU32_ok buf 16 (by omega), readU16_ok buf 20 (by omega), readU16_ok buf 22 (by omega), SuperBlockFlags.parse_ok buf 24 (by omega), readU16_ok buf 26 (by omega), readU16_ok buf 28 (by omega), readU16_ok buf 30 (by omega), readU64_ok buf 32 (by omega), readU64_ok buf 40 (by omega), readU64_ok buf 48 (by omega), as_optional_err buf 56 (by omega)]
  by_cases h72 : 72 ≤ buf.length
  case neg => simp [SuperBlock.read, isOkE, readBytes_ok buf 0 4 (by omega), hm, readU32_ok buf 4 (by omega), as_datetime_ok buf 8 (by omega), readU32_ok buf 12 (by omega), readU32_ok buf 16 (by omega), readU16_ok buf 20 (by omega), readU16_ok buf 22 (by omega), SuperBlockFlags.parse_ok buf 24 (by omega), readU16_ok buf 26 (by omega), readU16_ok buf 28 (by omega), readU16_ok buf 30 (by omega), readU64_ok buf 32 (by omega), readU64_ok buf 40 (by omega), readU64_ok buf 48 (by omega), as_optional_ok buf 56 (by omega), readU64_err buf 64 (by omega)]
  by_cases h80 : 80 ≤ buf.length
  case neg => simp [SuperBlock.read, isOkE, readBytes_ok buf 0 4 (by omega), hm, readU32_ok buf 4 (by omega), as_datetime_ok buf 8 (by omega), readU32_ok buf 12 (by omega), readU32_ok buf 16 (by omega), readU16_ok buf 20 (by omega), readU16_ok buf 22 (by omega), SuperBlockFlags.parse_ok buf 24 (by omega), readU16_ok buf 26 (by omega), readU16_ok buf 28 (by omega), readU16_ok buf 30 (by omega), readU64_ok buf 32 (by omega), readU64_ok buf 40 (by omega), readU64_ok buf 48 (by omega), as_optional_ok buf 56 (by omega), readU64_ok buf 64 (by omega), readU64_err buf 72 (by omega)]
  by_cases h88 : 88 ≤ buf.length
  case neg => simp [SuperBlock.read, isOkE, readBytes_ok buf 0 4 (by omega), hm, readU32_ok buf 4 (by omega), as_datetime_ok buf 8 (by omega), readU32_ok buf 12 (by omega), readU32_ok buf 16 (by omega), readU16_ok buf 20 (by omega), readU16_ok buf 22 (by omega), SuperBlockFlags.parse_ok buf 24 (by omega), readU16_ok buf 26 (by omega), readU16_ok buf 28 (by omega), readU16_ok buf 30 (by omega), readU64_ok buf 32 (by omega), readU64_ok buf 40 (by omega), readU64_ok buf 48 (by omega), as_optional_ok buf 56 (by omega), readU64_ok buf 64 (by omega), readU64_ok buf 72 (by omega), as_optional_err buf 80 (by omega)]
  simp [SuperBlock.read, isOkE, readBytes_ok buf 0 4 (by omega), hm, readU32_ok buf 4 (by omega), as_datetime_ok buf 8 (by omega), readU32_ok buf 12 (by omega), readU32_ok buf 16 (by omega), readU16_ok buf 20 (by omega), readU16_ok buf 22 (by omega), SuperBlockFlags.parse_ok buf 24 (by omega), readU16_ok buf 26 (by omega), readU16_ok buf 28 (by omega), readU16_ok buf 30 (by omega), readU64_ok buf 32 (by omega), readU64_ok buf 40 (by omega), readU64_ok buf 48 (by omega), as_optional_ok buf 56 (by omega), readU64_ok buf 64 (by omega), readU64_ok buf 72 (by omega), as_optional_ok buf 80 (by omega), as_optional_err buf 88 (by omega)]

/-- With at least 96 bytes available every field read succeeds, and the
decode reduces to the magic check followed by the struct-level
assertions over the extracted little-endian fields. -/
theorem superblock_read_full (buf : List Nat) (h : 96 ≤ buf.length) :
    SuperBlock.read buf =
      (if bufBytes buf 0 4 = magicBytes then
        if fieldU16 buf 28 = 4 then
          if fieldU16 buf 30 = 0 then
            if blockLogCheck (fieldU32 buf 12) (fieldU16 buf 22) then
              if is_power_of_two (fieldU32 buf 12) then
                if 4096 ≤ fieldU32 buf 12 ∧ fieldU32 buf 12 ≤ 1048576 then
                  Except.ok
                    { inode_count := fieldU32 buf 4, mod_time := fieldU32 buf 8,
                      block_size := fieldU32 buf 12, frag_count := fieldU32 buf 16,
                      compressor := fieldU16 buf 20, block_log := fieldU16 buf 22,
                      flags := from_bits_truncate (fieldU16 buf 24),
                      id_count := fieldU16 buf 26, version_major := fieldU16 buf 28,
                      version_minor := fieldU16 buf 30, root_inode := fieldU64 buf 32,
                      bytes_used := fieldU64 buf 40, id_table_start := fieldU64 buf 48,
                      xattr_id_table_start := decodeOpt (fieldU64 buf 56),
                      inode_table_start := fieldU64 buf 64,
                      directory_table_start := fieldU64 buf 72,
                      fragment_table_start := decodeOpt (fieldU64 buf 80),
                      export_table_start := decodeOpt (fieldU64 buf 88) }
                else Except.error DecodeError.assertFail
              else Except.error DecodeError.assertFail
            else Except.error DecodeError.assertFail
          else Except.error DecodeError.assertFail
        else Except.error DecodeError.assertFail
      else Except.error DecodeError.badMagic) := by
  simp only [SuperBlock.read, Nat.reduceAdd,
    readBytes_ok buf 0 4 (by omega),
    readU32_ok buf 4 (by omega),
    as_datetime_ok buf 8 (by omega),
    readU32_ok buf 12 (by omega),
    readU32_ok buf 16 (by omega),
    readU16_ok buf 20 (by omega),
    readU16_ok buf 22 (by omega),
    SuperBlockFlags.parse_ok buf 24 (by omega),
    readU16_ok buf 26 (by omega),
    readU16_ok buf 28 (by omega),
    readU16_ok buf 30 (by omega),
    readU64_ok buf 32 (by omega),
    readU64_ok buf 40 (by omega),
    readU64_ok buf 48 (by omega),
    as_optional_ok buf 56 (by omega),
    readU64_ok buf 64 (by omega),
    readU64_ok buf 72 (by omega),
    as_optional_ok buf 80 (by omega),
    as_optional_ok buf 88 (by omega),
    fieldU16, fieldU32, fieldU64, decodeOpt]


/-! ### Claims about the header decoder -/

/-- Claim C5: header decode fails with a typed error (and, being a total
function, cannot panic) exactly when the magic differs from `hsqs`, the
version is not 4.0, the block size is not a power of two in
`[4096, 1048576]`, the block-log does not equal the base-2 logarithm of
the block size, or some field read runs past the end of the buffer; when
none of these hold the decode succeeds. -/
theorem header_decode_characterization (buf : List Nat) :
    isOkE (SuperBlock.read buf) = true ↔
      (96 ≤ buf.length ∧ bufBytes buf 0 4 = magicBytes ∧
       fieldU16 buf 28 = 4 ∧ fieldU16 buf 30 = 0 ∧
       is_power_of_two (fieldU32 buf 12) = true ∧
       4096 ≤ fieldU32 buf 12 ∧ fieldU32 buf 12 ≤ 1048576 ∧
       fieldU16 buf 22 = log2u32 (fieldU32 buf 12)) := by
  by_cases h96 : 96 ≤ buf.length
  · rw [superblock_read_full buf h96]
    constructor
    · intro h
      by_cases h1 : bufBytes buf 0 4 = magicBytes
      case neg => rw [if_neg h1] at h; simp [isOkE] at h
      rw [if_pos h1] at h
      by_cases h2 : fieldU16 buf 28 = 4
      case neg => rw [if_neg h2] at h; simp [isOkE] at h
      rw [if_pos h2] at h
      by_cases h3 : fieldU16 buf 30 = 0
      case neg => rw [if_neg h3] at h; simp [isOkE] at h
      rw [if_pos h3] at h
      by_cases hbl : blockLogCheck (fieldU32 buf 12) (fieldU16 buf 22) = true
      case neg => rw [if_neg (by simpa using hbl)] at h; simp [isOkE] at h
      rw [if_pos (by simpa using hbl)] at h
      by_cases hp : is_power_of_two (fieldU32 buf 12) = true
      case neg => rw [if_neg (by simpa using hp)] at h; simp [isOkE] at h
      rw [if_pos (by simpa using hp)] at h
      by_cases h6 : 4096 ≤ fieldU32 buf 12 ∧ fieldU32 buf 12 ≤ 1048576
      case neg => rw [if_neg h6] at h; simp [isOkE] at h
      refine ⟨h96, h1, h2, h3, hp, h6.1, h6.2, ?_⟩
      simp only [blockLogCheck, beq_iff_eq] at hbl
      exact hbl.symm
    · rintro ⟨-, h1, h2, h3, hp, h6a, h6b, hbl⟩
      rw [if_pos h1, if_pos h2, if_pos h3,
        if_pos (show (blockLogCheck (fieldU32 buf 12) (fieldU16 buf 22) : Prop) by
          simp [blockLogCheck, hbl]),
        if_pos (show (is_power_of_two (fieldU32 buf 12) : Prop) by simp [hp]),
        if_pos ⟨h6a, h6b⟩]
      rfl
  · constructor
    · intro h
      rw [superblock_read_short buf h96] at h
      cases h
    · rintro ⟨h, -⟩
      exact absurd h h96

/-- A well-formed 96-byte header: magic `hsqs`, version 4.0,
block size 131072 with block-log 17, the three optional pointers at the
all-ones sentinel. -/
def sampleHeader : List Nat :=
  [0x68, 0x73, 0x71, 0x73,
   1, 0, 0, 0,
   0, 0, 0, 0,
   0, 0, 2, 0,
   0, 0, 0, 0,
   1, 0,
   17, 0,
   0, 0,
   1, 0,
   4, 0,
   0, 0,
   0, 0, 0, 0, 0, 0, 0, 0,
   0, 0, 0, 0, 0, 0, 0, 0,
   96, 0, 0, 0, 0, 0, 0, 0,
   0xFF, 0xFF, 0xFF, 0xFF, 0xFF, 0xFF, 0xFF, 0xFF,
   104, 0, 0, 0, 0, 0, 0, 0,
   112, 0, 0, 0, 0, 0, 0, 0,
   0xFF, 0xFF, 0xFF, 0xFF, 0xFF, 0xFF, 0xFF, 0xFF,
   0xFF, 0xFF, 0xFF, 0xFF, 0xFF, 0xFF, 0xFF, 0xFF]

theorem header_decode_characterization_witness :
    isOkE (SuperBlock.read sampleHeader) = true :=
  (header_decode_characterization sampleHeader).mpr (by decide)

/-- Claim C6: an optional pointer field decodes to "absent" exactly when
the raw little-endian `u64` equals `0xFFFFFFFFFFFFFFFF`; every other raw
value, including zero, decodes to a present pointer carrying that exact
value. -/
theorem optional_pointer_sentinel (r : Reader) (v : Nat) (r2 : Reader)
    (h : readU64 r = Except.ok (v, r2)) :
    (as_optional r = Except.ok (none, r2) ↔ v = 0xFFFFFFFFFFFFFFFF) ∧
    (v ≠ 0xFFFFFFFFFFFFFFFF → as_optional r = Except.ok (some v, r2)) := by
  refine ⟨⟨fun hn => ?_, fun hv => ?_⟩, fun hv => ?_⟩
  · by_cases hv : v = 0xFFFFFFFFFFFFFFFF
    · exact hv
    · simp [as_optional, h, hv] at hn
  · simp [as_optional, h, hv]
  · simp [as_optional, h, hv]

theorem optional_pointer_sentinel_witness :
    as_optional ⟨List.replicate 8 0, 0⟩ =
      Except.ok (some 0, ⟨List.replicate 8 0, 8⟩) :=
  (optional_pointer_sentinel ⟨List.replicate 8 0, 0⟩ 0 ⟨List.replicate 8 0, 8⟩
    rfl).2 (by decide)

/-- Claim C7 as stated is false on the code: the flags parser uses
`from_bits_truncate`, which discards the four bits with no named flag.
Parsing the raw flags value `0x1000` yields the decoded value `0`, which
does not round-trip to the original 16-bit value. -/
theorem superblock_flags_unknown_bits_dropped :
    readU16 ⟨[0x00, 0x10], 0⟩ = Except.ok (0x1000, ⟨[0x00, 0x10], 2⟩) ∧
    SuperBlockFlags.parse ⟨[0x00, 0x10], 0⟩ = Except.ok (0, ⟨[0x00, 0x10], 2⟩) ∧
    (0 : Nat) ≠ 0x1000 := ⟨rfl, rfl, by decide⟩

/-- Claim C7 (amended): flag decode never fails — unknown bits are not
rejected — but unknown bits are silently discarded rather than
preserved: the decoded flag set is the raw 16-bit value masked to the
twelve named bits, so the round-trip holds only for values with no
unknown bits. -/
theorem superblock_flags_truncate (r : Reader) (v : Nat) (r2 : Reader)
    (h : readU16 r = Except.ok (v, r2)) :
    SuperBlockFlags.parse r = Except.ok (v &&& superBlockFlagsAll, r2) := by
  simp [SuperBlockFlags.parse, h, from_bits_truncate]

theorem superblock_flags_truncate_witness :
    SuperBlockFlags.parse ⟨[0xFF, 0xFF], 0⟩ =
      Except.ok (0xFFFF &&& superBlockFlagsAll, ⟨[0xFF, 0xFF], 2⟩) :=
  superblock_flags_truncate ⟨[0xFF, 0xFF], 0⟩ 0xFFFF ⟨[0xFF, 0xFF], 2⟩ rfl

/-- Claim C9 is contradicted by the code: `decrypt_header` slices
`buffer[..96]` before any decode, so an input shorter than 96 bytes hits
a Rust slice-index panic instead of propagating a typed truncation
error to the caller. -/
theorem decrypt_header_short_input_panics :
    decrypt_header [1] (List.replicate 95 0) = HeaderOutcome.panicked := by decide

theorem readU32_inv (r : Reader) (v : Nat) (r2 : Reader)
    (h : readU32 r = Except.ok (v, r2)) :
    v = leBytes (bufBytes r.data r.pos 4) ∧ r2 = ⟨r.data, r.pos + 4⟩ ∧
      r.pos + 4 ≤ r.data.length := by
  by_cases hb : r.pos + 4 ≤ r.data.length
  · simp [readU32, readBytes, hb] at h
    exact ⟨h.1.symm, h.2.symm, hb⟩
  · simp [readU32, readBytes, hb] at h

/-- Claim C10: the `Invalid timestamp` branch of `as_datetime` is
unreachable — whenever the `u32` read succeeds, the chrono conversion
succeeds, because every `u32` widened to signed seconds lies inside the
representable calendar range. -/
theorem timestamp_conversion_total (r : Reader) (ts : Nat) (r2 : Reader)
    (h : readU32 r = Except.ok (ts, r2)) :
    as_datetime r = Except.ok (ts, r2) := by
  obtain ⟨hv, -, -⟩ := readU32_inv r ts r2 h
  subst hv
  simp [as_datetime, h, timestamp_range r.data r.pos]

theorem timestamp_conversion_total_witness :
    as_datetime ⟨[0, 0, 0, 0], 0⟩ = Except.ok (0, ⟨[0, 0, 0, 0], 4⟩) :=
  timestamp_conversion_total ⟨[0, 0, 0, 0], 0⟩ 0 ⟨[0, 0, 0, 0], 4⟩ rfl
